import Mathlib

/-!
Verification of the job-queue core (job store, lease scheduler, backoff
policy, worker outcome reporting, process supervisor) against its
natural-language specification.  The SQLite-backed job table is embedded
as a `List Job` in rowid order; every SQL `UPDATE ... WHERE id = ?`
becomes a `List.map` that rewrites the matching records.  Timestamps are
Unix seconds (`Nat`).
-/

namespace JobQueue

/-- A row of the `jobs` table (see the `CREATE TABLE` statement in
`database.js`): `user_id` is the optional unique external id, `status` is
one of the five status strings, and the nullable columns are `Option`s. -/
structure Job where
  id : Nat
  user_id : Option String
  command : String
  status : String
  attempts : Nat
  last_attempt_at : Option Nat
  created_at : Nat
  updated_at : Nat
  started_at : Option Nat
  completed_at : Option Nat
  error_message : Option String
  locked_until : Option Nat
deriving Repr, DecidableEq

/-- Default of the `lockDurationSeconds` parameter of `getJobForWorker`. -/
def defaultLockDurationSeconds : Nat := 300

/-- The backoff-eligibility time: the moment a failed job becomes
retryable, `last_attempt_at + POWER(backoffBase, attempts)` from the
scheduler's `WHERE` clause in `getJobForWorker`. -/
def nextEligibleAt (backoffBase lastAttemptAt attempts : Nat) : Nat :=
  lastAttemptAt + backoffBase ^ attempts

/-- `last_attempt_at IS NULL OR last_attempt_at + POWER(?, attempts) <= now`. -/
def backoffElapsed (backoffBase now : Nat) (j : Job) : Bool :=
  match j.last_attempt_at with
  | none => true
  | some t => decide (nextEligibleAt backoffBase t j.attempts ≤ now)

/-- `locked_until IS NULL OR locked_until <= now`. -/
def leaseFree (now : Nat) (j : Job) : Bool :=
  match j.locked_until with
  | none => true
  | some l => decide (l ≤ now)

/-- The scheduler's eligibility predicate from `getJobForWorker`:
`(status = 'pending' OR (status = 'failed' AND backoff elapsed)) AND
(locked_until IS NULL OR locked_until <= now)`. -/
def eligible (backoffBase now : Nat) (j : Job) : Bool :=
  (decide (j.status = "pending") ||
    (decide (j.status = "failed") && backoffElapsed backoffBase now j))
    && leaseFree now j

/-- `SELECT * FROM jobs WHERE <eligible> ORDER BY created_at ASC LIMIT 1`:
the eligible job with the least `created_at`, ties broken by position in
the table (insertion order). -/
def selectJob (backoffBase now : Nat) : List Job → Option Job
  | [] => none
  | j :: rest =>
    match selectJob backoffBase now rest with
    | none => if eligible backoffBase now j then some j else none
    | some k =>
      if eligible backoffBase now j && decide (j.created_at ≤ k.created_at) then
        some j
      else
        some k

/-- The claiming `UPDATE` of `getJobForWorker` applied to one record:
`status = 'processing', started_at = now, locked_until = now + lock,
updated_at = now`. -/
def claimJob (now lockDurationSeconds : Nat) (j : Job) : Job :=
  { j with
    status := "processing"
    started_at := some now
    locked_until := some (now + lockDurationSeconds)
    updated_at := now }

/-- `getJobForWorker`: select the eligible job with the earliest
`created_at`; if one exists, mark it processing with a fresh lease and
return its updated snapshot, otherwise return `none` and leave the table
unchanged. -/
def getJobForWorker (lockDurationSeconds backoffBase now : Nat)
    (jobs : List Job) : Option Job × List Job :=
  match selectJob backoffBase now jobs with
  | none => (none, jobs)
  | some j =>
    (some (claimJob now lockDurationSeconds j),
     jobs.map (fun k =>
       if k.id = j.id then claimJob now lockDurationSeconds k else k))

/-- One record's view of `updateJobStatus(job_id, newStatus, options)`:
always `status = newStatus, updated_at = now, locked_until = NULL`; for
`completed` also `completed_at = now`; for `failed`/`dead` the optional
`errorMessage`/`attempts`/`lastAttemptAt` assignments when supplied. -/
def updateJobStatusStep (now : Nat) (newStatus : String)
    (errorMessage : Option String) (attemptsOpt lastAttemptAtOpt : Option Nat)
    (j : Job) : Job :=
  let j1 : Job := { j with status := newStatus, updated_at := now, locked_until := none }
  let j2 : Job := if newStatus = "completed" then { j1 with completed_at := some now } else j1
  if newStatus = "failed" ∨ newStatus = "dead" then
    let j3 : Job := match errorMessage with
      | none => j2
      | some e => { j2 with error_message := some e }
    let j4 : Job := match attemptsOpt with
      | none => j3
      | some a => { j3 with attempts := a }
    match lastAttemptAtOpt with
    | none => j4
    | some t => { j4 with last_attempt_at := some t }
  else j2

/-- `updateJobStatus`: `UPDATE jobs SET ... WHERE id = ?` — rewrites the
matching records, a silent no-op when no record has the id. -/
def updateJobStatus (now jid : Nat) (newStatus : String)
    (errorMessage : Option String) (attemptsOpt lastAttemptAtOpt : Option Nat)
    (jobs : List Job) : List Job :=
  jobs.map (fun j =>
    if j.id = jid then
      updateJobStatusStep now newStatus errorMessage attemptsOpt lastAttemptAtOpt j
    else j)

/-- One record's view of `incrementJobAttempts(job_id, error_message)`:
`attempts = attempts + 1, last_attempt_at = now, updated_at = now,
locked_until = NULL`, plus `error_message` when one is given. -/
def incrementJobAttemptsStep (now : Nat) (errorMessage : Option String)
    (j : Job) : Job :=
  let j1 : Job := { j with attempts := j.attempts + 1, last_attempt_at := some now,
                           updated_at := now, locked_until := none }
  match errorMessage with
  | none => j1
  | some e => { j1 with error_message := some e }

/-- `incrementJobAttempts` over the table. -/
def incrementJobAttempts (now jid : Nat) (errorMessage : Option String)
    (jobs : List Job) : List Job :=
  jobs.map (fun j => if j.id = jid then incrementJobAttemptsStep now errorMessage j else j)

/-- One record's view of the failure branch of `processJob` in
`worker.js`: `incrementJobAttempts(job.id, errorMessage)` followed by
`updateJobStatus(job.id, 'dead' | 'failed', { errorMessage })`, the
branch decided by `job.attempts + 1 >= maxRetries` on the worker's
snapshot attempts. -/
def processJobFailureStep (maxRetries now : Nat) (errMsg : String)
    (snapAttempts : Nat) (j : Job) : Job :=
  let j1 := incrementJobAttemptsStep now (some errMsg) j
  if maxRetries ≤ snapAttempts + 1 then
    updateJobStatusStep now "dead" (some errMsg) none none j1
  else
    updateJobStatusStep now "failed" (some errMsg) none none j1

/-- The failure branch of `processJob` over the table. -/
def processJobFailure (maxRetries now : Nat) (errMsg : String)
    (snapAttempts jid : Nat) (jobs : List Job) : List Job :=
  if maxRetries ≤ snapAttempts + 1 then
    updateJobStatus now jid "dead" (some errMsg) none none
      (incrementJobAttempts now jid (some errMsg) jobs)
  else
    updateJobStatus now jid "failed" (some errMsg) none none
      (incrementJobAttempts now jid (some errMsg) jobs)

/-- One record's view of `retryDlqJob(job_id)`: the `UPDATE ... WHERE
id = ? AND status = 'dead'` touches a record only when both conditions
hold, resetting it to a fresh pending job. -/
def retryDlqJobStep (now jid : Nat) (j : Job) : Job :=
  if j.id = jid ∧ j.status = "dead" then
    { j with status := "pending", attempts := 0, last_attempt_at := none,
             error_message := none, locked_until := none, updated_at := now }
  else j

/-- `retryDlqJob` over the table. -/
def retryDlqJob (now jid : Nat) (jobs : List Job) : List Job :=
  jobs.map (retryDlqJobStep now jid)

/-- Errors of the enqueue path: the CLI handler rejects an empty
`command`; the `user_id TEXT UNIQUE` column rejects a duplicate external
id on insertion. -/
inductive ValidationError where
  | emptyCommand
  | duplicateExternalId
deriving Repr, DecidableEq

/-- The next `AUTOINCREMENT` rowid: larger than every id in the table. -/
def nextJobId (jobs : List Job) : Nat :=
  (jobs.foldl (fun m j => max m j.id) 0) + 1

/-- The row inserted by `enqueueJob(command, user_id)`: status
`'pending'`, `created_at = updated_at = now`, every other column at its
schema default. -/
def newJob (nid : Nat) (command : String) (externalId : Option String)
    (now : Nat) : Job :=
  { id := nid, user_id := externalId, command := command, status := "pending",
    attempts := 0, last_attempt_at := none, created_at := now, updated_at := now,
    started_at := none, completed_at := none, error_message := none,
    locked_until := none }

/-- Whether an external id is already used by a job in the table (the
`UNIQUE` constraint on `user_id`; `NULL`s never conflict). -/
def externalIdTaken (externalId : Option String) (jobs : List Job) : Bool :=
  match externalId with
  | none => false
  | some e => jobs.any (fun j => j.user_id == some e)

/-- The enqueue operation: the CLI handler's `if (!command)` guard, the
schema's `UNIQUE` check on `user_id`, then `enqueueJob`'s `INSERT`
returning `lastInsertRowid`. -/
def enqueue (command : String) (externalId : Option String) (now : Nat)
    (jobs : List Job) : Except ValidationError (Nat × List Job) :=
  if command = "" then .error .emptyCommand
  else if externalIdTaken externalId jobs then .error .duplicateExternalId
  else
    .ok (nextJobId jobs, jobs ++ [newJob (nextJobId jobs) command externalId now])

/-- `readWorkerPids`: the persisted pid registry, filtered by the
`process.kill(pid, 0)` liveness probe (`alive`). -/
def readWorkerPids (alive : Nat → Bool) (registry : List Nat) : List Nat :=
  registry.filter alive

/-- `stopWorker(pid?)` from the worker manager, returning
`(stoppedPids, new registry contents)`.  Targeted stop: when the pid is
among the live registered pids, send SIGTERM, report it stopped, and
remove it from the registry at once; otherwise report nothing stopped
and rewrite the registry with its liveness-filtered contents.  Stop-all:
SIGTERM every live registered pid and remove all of them. -/
def stopWorker (alive : Nat → Bool) (registry : List Nat) :
    Option Nat → List Nat × List Nat
  | some pid =>
    let activePids := readWorkerPids alive registry
    if pid ∈ activePids then
      ([pid], activePids.filter (fun q => q != pid))
    else
      ([], activePids)
  | none =>
    let activePids := readWorkerPids alive registry
    let stopped := activePids.filter (fun p => alive p)
    (stopped, activePids.filter (fun q => ! stopped.contains q))

theorem selectJob_eq_none_iff (backoffBase now : Nat) (jobs : List Job) :
    selectJob backoffBase now jobs = none ↔
      ∀ j ∈ jobs, eligible backoffBase now j = false := by
  induction jobs with
  | nil => simp [selectJob]
  | cons a rest ih =>
    rw [selectJob]
    cases hrec : selectJob backoffBase now rest with
    | none =>
      have hrest := ih.mp hrec
      by_cases he : eligible backoffBase now a = true
      · simp [he]
      · simp only [List.forall_mem_cons]
        simp [he, Bool.not_eq_true _ |>.mp he]
        exact hrest
    | some m =>
      constructor
      · intro h
        have h' : (if (eligible backoffBase now a &&
              decide (a.created_at ≤ m.created_at)) = true
            then some a else some m) = (none : Option Job) := h
        by_cases hc : (eligible backoffBase now a &&
            decide (a.created_at ≤ m.created_at)) = true
        · rw [if_pos hc] at h'; cases h'
        · rw [if_neg hc] at h'; cases h'
      · intro h
        exfalso
        have hne : selectJob backoffBase now rest = none := by
          rw [ih]; intro k hk; exact h k (List.mem_cons_of_mem _ hk)
        rw [hne] at hrec
        cases hrec

theorem selectJob_spec (backoffBase now : Nat) :
    ∀ (jobs : List Job) (j : Job), selectJob backoffBase now jobs = some j →
      j ∈ jobs ∧ eligible backoffBase now j = true ∧
        ∀ k ∈ jobs, eligible backoffBase now k = true →
          j.created_at ≤ k.created_at := by
  intro jobs
  induction jobs with
  | nil => intro j h; simp [selectJob] at h
  | cons a rest ih =>
    intro j h
    rw [selectJob] at h
    revert h
    cases hrec : selectJob backoffBase now rest with
    | none =>
      intro h
      have hrest := (selectJob_eq_none_iff backoffBase now rest).mp hrec
      by_cases he : eligible backoffBase now a = true
      · rw [if_pos he] at h
        cases h
        refine ⟨List.mem_cons_self _ _, he, ?_⟩
        intro k hk hke
        rcases List.mem_cons.mp hk with rfl | hkr
        · exact Nat.le_refl _
        · rw [hrest k hkr] at hke; cases hke
      · rw [if_neg he] at h
        cases h
    | some m =>
      intro h
      have h' : (if (eligible backoffBase now a &&
            decide (a.created_at ≤ m.created_at)) = true
          then some a else some m) = some j := h
      clear h
      obtain ⟨hmem, hel, hmin⟩ := ih m hrec
      by_cases hc : (eligible backoffBase now a &&
          decide (a.created_at ≤ m.created_at)) = true
      · rw [if_pos hc] at h'
        cases h'
        have hc2 := hc
        simp only [Bool.and_eq_true, decide_eq_true_eq] at hc2
        obtain ⟨hea, ham'⟩ := hc2
        refine ⟨List.mem_cons_self _ _, hea, ?_⟩
        intro k hk hke
        rcases List.mem_cons.mp hk with rfl | hkr
        · exact Nat.le_refl _
        · exact Nat.le_trans ham' (hmin k hkr hke)
      · rw [if_neg hc] at h'
        cases h'
        refine ⟨List.mem_cons_of_mem _ hmem, hel, ?_⟩
        intro k hk hke
        rcases List.mem_cons.mp hk with rfl | hkr
        · have hno : ¬ (k.created_at ≤ j.created_at) := by
            intro hle
            exact hc (by simp [hke, hle])
          omega
        · exact hmin k hkr hke

/-- A concrete pending job for the witnesses. -/
def jobPending : Job :=
  { id := 1, user_id := none, command := "echo hi", status := "pending",
    attempts := 0, last_attempt_at := none, created_at := 10, updated_at := 10,
    started_at := none, completed_at := none, error_message := none,
    locked_until := none }

/-- A concrete processing job whose lease has already expired. -/
def jobProcessing : Job :=
  { jobPending with id := 2, status := "processing", started_at := some 40,
                    locked_until := some 50 }

/-- A concrete dead job. -/
def jobDead : Job :=
  { jobPending with id := 3, status := "dead", attempts := 5,
                    last_attempt_at := some 90, error_message := some "boom" }

/-- A concrete completed job. -/
def jobDone : Job :=
  { jobPending with id := 4, status := "completed", completed_at := some 20 }

/-- A concrete failed job with one recorded attempt. -/
def jobFailed : Job :=
  { jobPending with id := 5, status := "failed", attempts := 1,
                    last_attempt_at := some 20, error_message := some "boom" }

/-- C1: among jobs that are pending, or failed with the backoff window
elapsed (`last_attempt_at` absent or `last_attempt_at + base^attempts ≤
now`), and whose lease is absent or expired, `getJobForWorker` picks one
with the earliest `created_at`, sets its status to processing with
`started_at = now`, `locked_until = now + lock` (`lock` defaulting to
300) and `updated_at = now`, and returns that snapshot; with no eligible
job it returns `none` — no job available, not an error — and the table
is unchanged. -/
theorem getJobForWorker_correct (backoffBase now lock : Nat) (jobs : List Job) :
    ((∀ j ∈ jobs, eligible backoffBase now j = false) →
      getJobForWorker lock backoffBase now jobs = (none, jobs)) ∧
    (∀ j ∈ jobs, eligible backoffBase now j = true →
      ∃ c ∈ jobs, eligible backoffBase now c = true ∧
        (∀ k ∈ jobs, eligible backoffBase now k = true →
          c.created_at ≤ k.created_at) ∧
        (getJobForWorker lock backoffBase now jobs).1 =
          some (claimJob now lock c) ∧
        (claimJob now lock c).status = "processing" ∧
        (claimJob now lock c).started_at = some now ∧
        (claimJob now lock c).locked_until = some (now + lock) ∧
        (claimJob now lock c).updated_at = now ∧
        (getJobForWorker lock backoffBase now jobs).2 =
          jobs.map (fun k => if k.id = c.id then claimJob now lock k else k)) ∧
    defaultLockDurationSeconds = 300 := by
  refine ⟨?_, ?_, rfl⟩
  · intro h
    have hn : selectJob backoffBase now jobs = none :=
      (selectJob_eq_none_iff backoffBase now jobs).mpr h
    simp [getJobForWorker, hn]
  · intro j hj hje
    cases hsel : selectJob backoffBase now jobs with
    | none =>
      exfalso
      have := (selectJob_eq_none_iff backoffBase now jobs).mp hsel j hj
      rw [this] at hje
      cases hje
    | some c =>
      obtain ⟨hmem, hel, hmin⟩ := selectJob_spec backoffBase now jobs c hsel
      refine ⟨c, hmem, hel, hmin, ?_, rfl, rfl, rfl, rfl, ?_⟩
      · simp [getJobForWorker, hsel]
      · simp [getJobForWorker, hsel]

/-- C1 witness: a lone expired-lease processing job is not claimable; a
lone pending job is claimed at time 100 with a 300-second lease. -/
theorem getJobForWorker_correct_witness :
    getJobForWorker 300 2 100 [jobProcessing] = (none, [jobProcessing]) ∧
    (∃ c ∈ [jobPending], eligible 2 100 c = true ∧
      (∀ k ∈ [jobPending], eligible 2 100 k = true →
        c.created_at ≤ k.created_at) ∧
      (getJobForWorker 300 2 100 [jobPending]).1 = some (claimJob 100 300 c) ∧
      (claimJob 100 300 c).status = "processing" ∧
      (claimJob 100 300 c).started_at = some 100 ∧
      (claimJob 100 300 c).locked_until = some (100 + 300) ∧
      (claimJob 100 300 c).updated_at = 100 ∧
      (getJobForWorker 300 2 100 [jobPending]).2 =
        [jobPending].map (fun k => if k.id = c.id then claimJob 100 300 k else k)) :=
  ⟨(getJobForWorker_correct 2 100 300 [jobProcessing]).1 (by decide),
   (getJobForWorker_correct 2 100 300 [jobPending]).2.1 jobPending
     (by decide) (by decide)⟩

/-- C6: a job in status processing is never eligible, hence never
selected or re-claimed by the scheduler, at any time and for any backoff
base — even when its `locked_until` lies in the past. -/
theorem processing_never_reclaimed (backoffBase now : Nat) :
    (∀ j : Job, j.status = "processing" → eligible backoffBase now j = false) ∧
    (∀ (jobs : List Job) (j : Job), selectJob backoffBase now jobs = some j →
      j.status ≠ "processing") := by
  have hel : ∀ j : Job, j.status = "processing" →
      eligible backoffBase now j = false := by
    intro j h
    simp [eligible, h]
  refine ⟨hel, ?_⟩
  intro jobs j hsel hst
  have helj := (selectJob_spec backoffBase now jobs j hsel).2.1
  rw [hel j hst] at helj
  cases helj

/-- C6 witness: the expired-lease processing job is ineligible at time
100, and the job the scheduler does select from a concrete table is not
a processing one. -/
theorem processing_never_reclaimed_witness :
    jobProcessing.status = "processing" ∧
    eligible 2 100 jobProcessing = false ∧
    jobPending.status ≠ "processing" :=
  ⟨by decide,
   (processing_never_reclaimed 2 100).1 jobProcessing (by decide),
   (processing_never_reclaimed 2 100).2 [jobProcessing, jobPending] jobPending
     (by decide)⟩

/-- C7: for a backoff base greater than 1, `nextEligibleAt` is strictly
increasing in the attempt count at every fixed `lastAttemptAt`, and
`base ^ 0 = 1` so the computation at zero attempts is
`lastAttemptAt + 1`. -/
theorem nextEligibleAt_strictMono (base l a b : Nat) (hbase : 1 < base)
    (hab : a < b) :
    nextEligibleAt base l a < nextEligibleAt base l b ∧
      nextEligibleAt base l 0 = l + 1 := by
  constructor
  · have hp := Nat.pow_lt_pow_right hbase hab
    simpa [nextEligibleAt] using Nat.add_lt_add_left hp l
  · simp [nextEligibleAt]

/-- C7 witness at base 2, `lastAttemptAt` 50, attempts 1 < 3. -/
theorem nextEligibleAt_strictMono_witness :
    (1 : Nat) < 2 ∧ (1 : Nat) < 3 ∧
    (nextEligibleAt 2 50 1 < nextEligibleAt 2 50 3 ∧
      nextEligibleAt 2 50 0 = 50 + 1) :=
  ⟨by decide, by decide, nextEligibleAt_strictMono 2 50 1 3 (by decide) (by decide)⟩

/-- C10: a successful claim touches only the selected job's status,
`started_at`, `locked_until` and `updated_at`: its id, user id, command,
attempts, `last_attempt_at`, `created_at`, `completed_at` and
`error_message` survive, and every record with a different id is left in
the table unchanged. -/
theorem getJobForWorker_frame (backoffBase now lock : Nat) (jobs : List Job)
    (s : Job) (h : (getJobForWorker lock backoffBase now jobs).1 = some s) :
    ∃ j ∈ jobs, s = claimJob now lock j ∧
      (getJobForWorker lock backoffBase now jobs).2 =
        jobs.map (fun k => if k.id = j.id then claimJob now lock k else k) ∧
      (∀ k : Job, (claimJob now lock k).id = k.id ∧
        (claimJob now lock k).user_id = k.user_id ∧
        (claimJob now lock k).command = k.command ∧
        (claimJob now lock k).attempts = k.attempts ∧
        (claimJob now lock k).last_attempt_at = k.last_attempt_at ∧
        (claimJob now lock k).created_at = k.created_at ∧
        (claimJob now lock k).completed_at = k.completed_at ∧
        (claimJob now lock k).error_message = k.error_message) ∧
      (∀ k ∈ jobs, k.id ≠ j.id →
        k ∈ (getJobForWorker lock backoffBase now jobs).2) := by
  cases hsel : selectJob backoffBase now jobs with
  | none => simp [getJobForWorker, hsel] at h
  | some c =>
    have hmem := (selectJob_spec backoffBase now jobs c hsel).1
    have h1 : (getJobForWorker lock backoffBase now jobs).1 =
        some (claimJob now lock c) := by
      simp [getJobForWorker, hsel]
    have hs : s = claimJob now lock c := by
      rw [h1] at h
      exact (Option.some_inj.mp h).symm
    have h2 : (getJobForWorker lock backoffBase now jobs).2 =
        jobs.map (fun k => if k.id = c.id then claimJob now lock k else k) := by
      simp [getJobForWorker, hsel]
    refine ⟨c, hmem, hs, h2, ?_, ?_⟩
    · intro k
      exact ⟨rfl, rfl, rfl, rfl, rfl, rfl, rfl, rfl⟩
    · intro k hk hkid
      rw [h2]
      have hfk : (if k.id = c.id then claimJob now lock k else k) = k :=
        if_neg hkid
      exact hfk ▸ List.mem_map_of_mem _ hk

/-- C10 witness: claiming from the two-job table leaves the processing
job untouched and rewrites only the lease fields of the pending one. -/
theorem getJobForWorker_frame_witness :
    ∃ j ∈ [jobProcessing, jobPending], claimJob 100 300 jobPending = claimJob 100 300 j ∧
      (getJobForWorker 300 2 100 [jobProcessing, jobPending]).2 =
        [jobProcessing, jobPending].map
          (fun k => if k.id = j.id then claimJob 100 300 k else k) ∧
      (∀ k : Job, (claimJob 100 300 k).id = k.id ∧
        (claimJob 100 300 k).user_id = k.user_id ∧
        (claimJob 100 300 k).command = k.command ∧
        (claimJob 100 300 k).attempts = k.attempts ∧
        (claimJob 100 300 k).last_attempt_at = k.last_attempt_at ∧
        (claimJob 100 300 k).created_at = k.created_at ∧
        (claimJob 100 300 k).completed_at = k.completed_at ∧
        (claimJob 100 300 k).error_message = k.error_message) ∧
      (∀ k ∈ [jobProcessing, jobPending], k.id ≠ j.id →
        k ∈ (getJobForWorker 300 2 100 [jobProcessing, jobPending]).2) :=
  getJobForWorker_frame 2 100 300 [jobProcessing, jobPending]
    (claimJob 100 300 jobPending) (by decide)

theorem incrementJobAttemptsStep_id (now : Nat) (em : Option String) (j : Job) :
    (incrementJobAttemptsStep now em j).id = j.id := by
  cases em <;> rfl

theorem processJobFailure_eq_map (maxRetries now : Nat) (errMsg : String)
    (snapAttempts jid : Nat) (jobs : List Job) :
    processJobFailure maxRetries now errMsg snapAttempts jid jobs =
      jobs.map (fun k =>
        if k.id = jid then
          processJobFailureStep maxRetries now errMsg snapAttempts k
        else k) := by
  unfold processJobFailure updateJobStatus incrementJobAttempts
  by_cases hbr : maxRetries ≤ snapAttempts + 1
  · rw [if_pos hbr, List.map_map]
    apply List.map_congr_left
    intro k _
    by_cases hid : k.id = jid
    · simp [Function.comp, hid, incrementJobAttemptsStep_id,
        processJobFailureStep, hbr]
    · simp [Function.comp, hid]
  · rw [if_neg hbr, List.map_map]
    apply List.map_congr_left
    intro k _
    by_cases hid : k.id = jid
    · simp [Function.comp, hid, incrementJobAttemptsStep_id,
        processJobFailureStep, hbr]
    · simp [Function.comp, hid]

theorem processJobFailureStep_spec (maxRetries now : Nat) (errMsg : String)
    (snapAttempts : Nat) (j : Job) :
    (processJobFailureStep maxRetries now errMsg snapAttempts j).id = j.id ∧
    (processJobFailureStep maxRetries now errMsg snapAttempts j).attempts =
      j.attempts + 1 ∧
    (processJobFailureStep maxRetries now errMsg snapAttempts j).status =
      (if maxRetries ≤ snapAttempts + 1 then "dead" else "failed") := by
  by_cases hbr : maxRetries ≤ snapAttempts + 1 <;>
    simp [processJobFailureStep, updateJobStatusStep, incrementJobAttemptsStep,
      hbr]

/-- C2: reporting a failed attempt increments the job's attempts by one
and moves it to status dead exactly when the incremented count reaches
`maxRetries`, and to failed otherwise — so the failed-path result is
dead if and only if its attempts are at least `maxRetries`. -/
theorem processJobFailure_dead_iff (maxRetries now : Nat) (errMsg : String)
    (jid : Nat) (jobs : List Job) (j : Job)
    (hmem : j ∈ jobs) (hid : j.id = jid) :
    ∃ j' ∈ processJobFailure maxRetries now errMsg j.attempts jid jobs,
      j'.id = j.id ∧ j'.attempts = j.attempts + 1 ∧
      (j'.status = "dead" ↔ maxRetries ≤ j'.attempts) ∧
      (j'.status = "dead" ∨ j'.status = "failed") := by
  rw [processJobFailure_eq_map]
  obtain ⟨hsid, hsat, hsst⟩ :=
    processJobFailureStep_spec maxRetries now errMsg j.attempts j
  refine ⟨processJobFailureStep maxRetries now errMsg j.attempts j, ?_,
    hid ▸ hsid, hsat, ?_, ?_⟩
  · have hm := List.mem_map_of_mem
      (fun k => if k.id = jid then
        processJobFailureStep maxRetries now errMsg j.attempts k else k) hmem
    simpa [hid] using hm
  · rw [hsst, hsat]
    by_cases hbr : maxRetries ≤ j.attempts + 1
    · simp [hbr]
    · simp [hbr]
  · rw [hsst]
    by_cases hbr : maxRetries ≤ j.attempts + 1
    · left; simp [hbr]
    · right; simp [hbr]

/-- C2 witness: with `maxRetries = 2` the failed job with one prior
attempt dies on its next failure. -/
theorem processJobFailure_dead_iff_witness :
    ∃ j' ∈ processJobFailure 2 100 "boom" jobFailed.attempts 5 [jobFailed],
      j'.id = jobFailed.id ∧ j'.attempts = jobFailed.attempts + 1 ∧
      (j'.status = "dead" ↔ 2 ≤ j'.attempts) ∧
      (j'.status = "dead" ∨ j'.status = "failed") :=
  processJobFailure_dead_iff 2 100 "boom" 5 [jobFailed] jobFailed
    (by decide) (by decide)

/-- C3: `retryDlqJob` rewrites each record through `retryDlqJobStep`; a
record whose id matches and whose status is dead is reset to pending
with zero attempts and cleared `error_message`, `last_attempt_at` and
lease; a record that is not dead, or whose id differs, is unchanged, and
when no record carries the id the table is unchanged. -/
theorem retryDlqJob_correct (now jid : Nat) (jobs : List Job) (j : Job) :
    retryDlqJob now jid jobs = jobs.map (retryDlqJobStep now jid) ∧
    (j.id = jid → j.status = "dead" →
      retryDlqJobStep now jid j =
        { j with status := "pending", attempts := 0, last_attempt_at := none,
                 error_message := none, locked_until := none,
                 updated_at := now }) ∧
    (j.status ≠ "dead" → retryDlqJobStep now jid j = j) ∧
    (j.id ≠ jid → retryDlqJobStep now jid j = j) ∧
    ((∀ k ∈ jobs, k.id ≠ jid) → retryDlqJob now jid jobs = jobs) := by
  refine ⟨rfl, ?_, ?_, ?_, ?_⟩
  · intro h1 h2
    simp [retryDlqJobStep, h1, h2]
  · intro h
    simp [retryDlqJobStep, h]
  · intro h
    simp [retryDlqJobStep, h]
  · intro h
    unfold retryDlqJob
    have hstep : ∀ k ∈ jobs, retryDlqJobStep now jid k = k := by
      intro k hk
      simp [retryDlqJobStep, h k hk]
    calc jobs.map (retryDlqJobStep now jid) = jobs.map id :=
          List.map_congr_left hstep
      _ = jobs := List.map_id jobs

/-- C3 witness: the dead job is reset, the pending job and a
non-matching id are untouched. -/
theorem retryDlqJob_correct_witness :
    retryDlqJobStep 100 3 jobDead =
      { jobDead with status := "pending", attempts := 0,
                     last_attempt_at := none, error_message := none,
                     locked_until := none, updated_at := 100 } ∧
    retryDlqJobStep 100 3 jobPending = jobPending ∧
    retryDlqJob 100 99 [jobDead] = [jobDead] :=
  ⟨(retryDlqJob_correct 100 3 [] jobDead).2.1 (by decide) (by decide),
   (retryDlqJob_correct 100 3 [] jobPending).2.2.1 (by decide),
   (retryDlqJob_correct 100 99 [jobDead] jobDead).2.2.2.2 (by decide)⟩

/-- C4: whatever outcome and options are applied, the per-record update
always leaves `locked_until` cleared; the table operation rewrites
exactly the records carrying the id, and is a silent no-op — no error,
no change — when no record carries it. -/
theorem updateJobStatus_clears_lease (now jid : Nat) (st : String)
    (em : Option String) (ao la : Option Nat) (jobs : List Job) :
    (∀ j : Job, (updateJobStatusStep now st em ao la j).locked_until = none) ∧
    updateJobStatus now jid st em ao la jobs =
      jobs.map (fun j =>
        if j.id = jid then updateJobStatusStep now st em ao la j else j) ∧
    ((∀ j ∈ jobs, j.id ≠ jid) →
      updateJobStatus now jid st em ao la jobs = jobs) := by
  refine ⟨?_, rfl, ?_⟩
  · intro j
    unfold updateJobStatusStep
    by_cases h1 : st = "completed" <;> by_cases h2 : st = "failed" ∨ st = "dead" <;>
      cases em <;> cases ao <;> cases la <;> simp [h1, h2]
  · intro h
    unfold updateJobStatus
    have hstep : ∀ k ∈ jobs,
        (if k.id = jid then updateJobStatusStep now st em ao la k else k) = k := by
      intro k hk
      simp [h k hk]
    calc jobs.map (fun k =>
          if k.id = jid then updateJobStatusStep now st em ao la k else k)
        = jobs.map id := List.map_congr_left hstep
      _ = jobs := List.map_id jobs

/-- C4 witness: a completed outcome clears the expired lease of the
processing job, and applying it to an absent id changes nothing. -/
theorem updateJobStatus_clears_lease_witness :
    (updateJobStatusStep 100 "completed" none none none jobProcessing).locked_until
      = none ∧
    updateJobStatus 100 99 "completed" none none none [jobPending] = [jobPending] :=
  ⟨(updateJobStatus_clears_lease 100 99 "completed" none none none []).1
      jobProcessing,
   (updateJobStatus_clears_lease 100 99 "completed" none none none
      [jobPending]).2.2 (by decide)⟩

/-- C5: enqueue fails when the command is empty, fails when the external
id is already used by an existing job, and otherwise appends a fresh
pending job and returns its id; a successful enqueue never puts a job
with an empty command into the table. -/
theorem enqueue_correct (command : String) (externalId : Option String)
    (now : Nat) (jobs : List Job) :
    (externalIdTaken externalId jobs = true ↔
      ∃ e, externalId = some e ∧ ∃ j ∈ jobs, j.user_id = some e) ∧
    (command = "" → enqueue command externalId now jobs = .error .emptyCommand) ∧
    (command ≠ "" → externalIdTaken externalId jobs = true →
      enqueue command externalId now jobs = .error .duplicateExternalId) ∧
    (command ≠ "" → externalIdTaken externalId jobs = false →
      enqueue command externalId now jobs =
        .ok (nextJobId jobs,
          jobs ++ [newJob (nextJobId jobs) command externalId now]) ∧
      (newJob (nextJobId jobs) command externalId now).status = "pending") ∧
    (∀ i jobs2, enqueue command externalId now jobs = .ok (i, jobs2) →
      ∀ j ∈ jobs2, j.command = "" → j ∈ jobs) := by
  refine ⟨?_, ?_, ?_, ?_, ?_⟩
  · cases externalId with
    | none => simp [externalIdTaken]
    | some e =>
      simp only [externalIdTaken, List.any_eq_true, beq_iff_eq,
        Option.some.injEq]
      constructor
      · rintro ⟨j, hj, hje⟩
        exact ⟨e, rfl, j, hj, hje⟩
      · rintro ⟨e', he', j, hj, hje⟩
        exact ⟨j, hj, he' ▸ hje⟩
  · intro h
    simp [enqueue, h]
  · intro h1 h2
    simp [enqueue, h1, h2]
  · intro h1 h2
    exact ⟨by simp [enqueue, h1, h2], rfl⟩
  · intro i jobs2 hok j hj hjc
    unfold enqueue at hok
    by_cases h1 : command = ""
    · simp [h1] at hok
    · by_cases h2 : externalIdTaken externalId jobs = true
      · simp [h1, h2] at hok
      · rw [if_neg h1, if_neg h2] at hok
        have hjobs2 : jobs2 =
            jobs ++ [newJob (nextJobId jobs) command externalId now] := by
          cases hok
          rfl
        rw [hjobs2] at hj
        rcases List.mem_append.mp hj with hin | hnew
        · exact hin
        · exfalso
          have : j = newJob (nextJobId jobs) command externalId now := by
            simpa using hnew
          rw [this] at hjc
          exact h1 hjc

/-- C5 witness: an empty command is rejected, a duplicate external id is
rejected, and a fresh enqueue appends a pending job. -/
theorem enqueue_correct_witness :
    enqueue "" none 100 [] = .error .emptyCommand ∧
    enqueue "date" (some "custom-job-123") 100
        [{ jobPending with user_id := some "custom-job-123" }] =
      .error .duplicateExternalId ∧
    (enqueue "date" none 100 [jobPending] =
      .ok (nextJobId [jobPending],
        [jobPending] ++ [newJob (nextJobId [jobPending]) "date" none 100]) ∧
      (newJob (nextJobId [jobPending]) "date" none 100).status = "pending") :=
  ⟨(enqueue_correct "" none 100 []).2.1 rfl,
   (enqueue_correct "date" (some "custom-job-123") 100
      [{ jobPending with user_id := some "custom-job-123" }]).2.2.1
      (by decide) (by decide),
   (enqueue_correct "date" none 100 [jobPending]).2.2.2.1
      (by decide) (by decide)⟩

/-- C8 counterexample: the claim says outcome application to a job
already in a terminal status is rejected or ignored, but the update has
no error path and is not a no-op: applying outcome dead to the completed
job overwrites its status, and even re-applying the same terminal
outcome at a later timestamp changes the record (`updated_at` moves). -/
theorem updateJobStatus_terminal_not_ignored :
    jobDone.status = "completed" ∧
    (updateJobStatusStep 9 "dead" (some "boom") none none jobDone).status =
      "dead" ∧
    updateJobStatusStep 9 "dead" (some "boom") none none jobDone ≠ jobDone ∧
    updateJobStatusStep 30 "completed" none none none jobDone ≠ jobDone := by
  refine ⟨rfl, rfl, ?_, ?_⟩ <;> decide

/-- C8 amended: the per-record update with fixed arguments is
idempotent — the second application with the same outcome, timestamp and
options reproduces the first's record exactly — and an application that
passes no attempts option never changes the attempts field, so a
repeated terminal outcome cannot double-increment attempts; the update
is applied unconditionally, so a job already in a terminal status is
neither rejected nor ignored. -/
theorem updateJobStatusStep_idem (now : Nat) (st : String)
    (em : Option String) (ao la : Option Nat) (j : Job) :
    updateJobStatusStep now st em ao la (updateJobStatusStep now st em ao la j) =
      updateJobStatusStep now st em ao la j ∧
    (ao = none → (updateJobStatusStep now st em ao la j).attempts = j.attempts) := by
  constructor
  · unfold updateJobStatusStep
    by_cases h1 : st = "completed" <;> by_cases h2 : st = "failed" ∨ st = "dead" <;>
      cases em <;> cases ao <;> cases la <;> simp [h1, h2]
  · rintro rfl
    unfold updateJobStatusStep
    by_cases h1 : st = "completed" <;> by_cases h2 : st = "failed" ∨ st = "dead" <;>
      cases em <;> cases la <;> simp [h1, h2]

/-- C8 amended witness: the dead outcome applied twice to the completed
job equals its single application, which keeps the attempts count. -/
theorem updateJobStatusStep_idem_witness :
    updateJobStatusStep 9 "dead" (some "boom") none none
        (updateJobStatusStep 9 "dead" (some "boom") none none jobDone) =
      updateJobStatusStep 9 "dead" (some "boom") none none jobDone ∧
    (updateJobStatusStep 9 "dead" (some "boom") none none jobDone).attempts =
      jobDone.attempts :=
  ⟨(updateJobStatusStep_idem 9 "dead" (some "boom") none none jobDone).1,
   (updateJobStatusStep_idem 9 "dead" (some "boom") none none jobDone).2 rfl⟩

/-- C9 counterexample: pid 7 is registered and stays alive (it ignores
the termination request), yet the targeted stop removes it from the
registry at once — it does not remain registered until a liveness check. -/
theorem stopWorker_removes_live_pid :
    (fun _ : Nat => true) 7 = true ∧
    7 ∈ readWorkerPids (fun _ => true) [7] ∧
    (stopWorker (fun _ => true) [7] (some 7)).1 = [7] ∧
    (stopWorker (fun _ => true) [7] (some 7)).2 = [] := by
  refine ⟨rfl, ?_, ?_, ?_⟩ <;> decide

/-- C9 amended: a targeted stop sends the termination request only when
the pid is among the live registered pids — otherwise it reports nothing
stopped and merely rewrites the liveness-filtered registry — and it does
not wait for the process to exit: the pid is removed from the registry
immediately when the request is sent (even if the process ignores it),
while every other live pid stays registered. -/
theorem stopWorker_targeted (alive : Nat → Bool) (registry : List Nat)
    (pid : Nat) :
    (pid ∉ readWorkerPids alive registry →
      stopWorker alive registry (some pid) = ([], readWorkerPids alive registry)) ∧
    (pid ∈ readWorkerPids alive registry →
      (stopWorker alive registry (some pid)).1 = [pid] ∧
      pid ∉ (stopWorker alive registry (some pid)).2 ∧
      ∀ q ∈ readWorkerPids alive registry, q ≠ pid →
        q ∈ (stopWorker alive registry (some pid)).2) := by
  constructor
  · intro h
    simp [stopWorker, h]
  · intro h
    refine ⟨by simp [stopWorker, h], ?_, ?_⟩
    · simp [stopWorker, h, List.mem_filter]
    · intro q hq hqp
      simp only [stopWorker, h, if_pos]
      exact List.mem_filter.mpr ⟨hq, by simpa using hqp⟩

/-- C9 amended witness: stopping an unregistered pid is a no-op report;
stopping pid 7 out of the live pids 7 and 8 reports it stopped, removes
it, and keeps 8 registered. -/
theorem stopWorker_targeted_witness :
    stopWorker (fun _ => true) [7] (some 9) =
      ([], readWorkerPids (fun _ => true) [7]) ∧
    ((stopWorker (fun _ => true) [7, 8] (some 7)).1 = [7] ∧
      7 ∉ (stopWorker (fun _ => true) [7, 8] (some 7)).2 ∧
      ∀ q ∈ readWorkerPids (fun _ => true) [7, 8], q ≠ 7 →
        q ∈ (stopWorker (fun _ => true) [7, 8] (some 7)).2) :=
  ⟨(stopWorker_targeted (fun _ => true) [7] 9).1 (by decide),
   (stopWorker_targeted (fun _ => true) [7, 8] 7).2 (by decide)⟩

end JobQueue
